import Mathlib

/-! The field-transformation engine of qb-proxies.

A shallow embedding of `internal/config/config.go`, `internal/transform/cel.go`
and `internal/proxy/handler.go`.

* Go's `error` results are `Option` values (`none` is `nil`).
* Go maps are association lists whose lookup returns the most recent binding
  of a key, so `m[k] = v` is `(k, v) :: m`.
* Pointer mutation of `*Item` is explicit state passing: `transformItem`
  returns the item as the caller finds it afterwards together with the error.
* The CEL runtime (`cel-go`), the Unicode case tables behind `strings.ToLower`,
  the XML codec and the upstream HTTP fetch are outside the repository and
  are taken as parameters.
-/

namespace QbProxies

/-! ## internal/config/config.go -/

namespace Config

/-- One `transformations:` entry of a feed. -/
structure Transformation where
  Field : String
  Expression : String
  deriving DecidableEq, Repr

/-- One `feeds:` entry. -/
structure Feed where
  Name : String
  Path : String
  Upstream : String
  Transformations : List Transformation
  deriving DecidableEq, Repr

/-- The four `fmt.Errorf` results of `validate`, each with the feed index. -/
inductive ValidateError where
  | nameRequired (i : Nat)
  | pathRequired (i : Nat)
  | upstreamRequired (i : Nat)
  | duplicatePath (i : Nat) (path : String)
  deriving DecidableEq, Repr

/-- The body of the `for i, feed := range c.Feeds` loop of `validate`;
`paths` holds the keys set to `true` so far. -/
def validateLoop (paths : List String) (i : Nat) : List Feed → Option ValidateError
  | [] => none
  | feed :: rest =>
    if feed.Name = "" then some (.nameRequired i)
    else if feed.Path = "" then some (.pathRequired i)
    else if feed.Upstream = "" then some (.upstreamRequired i)
    else if feed.Path ∈ paths then some (.duplicatePath i feed.Path)
    else validateLoop (feed.Path :: paths) (i + 1) rest

end Config

/-- The parsed configuration file. -/
structure Config where
  Feeds : List Config.Feed
  deriving DecidableEq, Repr

/-- Embeds `func (c *Config) validate() error`. -/
def Config.validate (c : Config) : Option Config.ValidateError :=
  Config.validateLoop [] 0 c.Feeds

/-! ## internal/transform/cel.go -/

namespace Transform

/-- The evaluation-model enclosure (`transform.Enclosure`), a value, never nil. -/
structure Enclosure where
  URL : String
  Length : String
  Type_ : String
  deriving DecidableEq, Repr

/-- The evaluation-model record `transform.RSSItem`. -/
structure RSSItem where
  Title : String
  Link : String
  Description : String
  GUID : String
  PubDate : String
  Enclosure : Enclosure
  InfoHash : String
  Size : String
  Category : String
  deriving DecidableEq, Repr

/-- A CEL result (`ref.Val`) as `valToString` inspects it: a value of
`types.StringType` with its Go string, or a value of any other type with the
text `fmt.Sprintf("%v", v.Value())` renders for it. -/
inductive Val where
  | string (value : String)
  | other (formatted : String)
  deriving DecidableEq, Repr

/-- A value of the `map[string]interface{}` handed to a program: a Go string
or the nested string-keyed map. -/
inductive Binding where
  | str (s : String)
  | map (m : List (String × String))
  deriving DecidableEq, Repr

/-- The activation `vars` of `Eval`. -/
abbrev Vars := List (String × Binding)

/-- A `cel.Program`: `prg.Eval(vars)` yields a value or an error. -/
abbrev Program := Vars → Except String Val

/-- The `*cel.Env` of cel-go, taken as a parameter: `Compile` parses and
checks an expression (`issues.Err()` on failure), `Program` plans an AST. -/
structure Env where
  Ast : Type
  Compile : String → Except String Ast
  Program : Ast → Except String Program

/-- The errors `cel.go` wraps with `fmt.Errorf`. -/
inductive EngineError where
  | creatingEnv (err : String)
  | compilingExpression (name : String) (err : String)
  | creatingProgram (name : String) (err : String)
  | programNotFound (name : String)
  | evaluating (name : String) (err : String)
  deriving DecidableEq, Repr

/-- The Go struct `Engine`; `programs` is the `map[string]cel.Program`. -/
structure Engine where
  env : Env
  programs : List (String × Program)

/-- Embeds `NewEngine`; `newEnv` is the outcome of the `cel.NewEnv` call that
declares `item` and the eleven string variables. -/
def NewEngine (newEnv : Except String Env) : Except EngineError Engine :=
  match newEnv with
  | .error err => .error (.creatingEnv err)
  | .ok env => .ok { env := env, programs := [] }

/-- Embeds `(*Engine).Compile`: on success `e.programs[name] = prg`. -/
def Engine.Compile (e : Engine) (name expr : String) : Except EngineError Engine :=
  match e.env.Compile expr with
  | .error err => .error (.compilingExpression name err)
  | .ok ast =>
    match e.env.Program ast with
    | .error err => .error (.creatingProgram name err)
    | .ok prg => .ok { e with programs := (name, prg) :: e.programs }

/-- The map literal `vars` that `Eval` builds from the record. -/
def evalVars (item : RSSItem) : Vars :=
  [ ("item", .map
      [ ("title", item.Title),
        ("link", item.Link),
        ("description", item.Description),
        ("guid", item.GUID),
        ("pubDate", item.PubDate),
        ("enclosureUrl", item.Enclosure.URL),
        ("enclosureLength", item.Enclosure.Length),
        ("enclosureType", item.Enclosure.Type_),
        ("infohash", item.InfoHash),
        ("size", item.Size),
        ("category", item.Category) ]),
    ("title", .str item.Title),
    ("link", .str item.Link),
    ("description", .str item.Description),
    ("guid", .str item.GUID),
    ("pubDate", .str item.PubDate),
    ("enclosureUrl", .str item.Enclosure.URL),
    ("enclosureLength", .str item.Enclosure.Length),
    ("enclosureType", .str item.Enclosure.Type_),
    ("infohash", .str item.InfoHash),
    ("size", .str item.Size),
    ("category", .str item.Category) ]

/-- Embeds `valToString`. -/
def valToString : Val → String
  | .string value => value
  | .other formatted => formatted

/-- Embeds `(*Engine).Eval`. -/
def Engine.Eval (e : Engine) (name : String) (item : RSSItem) : Except EngineError String :=
  match e.programs.lookup name with
  | none => .error (.programNotFound name)
  | some prg =>
    match prg (evalVars item) with
    | .error err => .error (.evaluating name err)
    | .ok out => .ok (valToString out)

end Transform

/-! ## Go standard library: `strings.ToLower` -/

/-- Go's `unicode.ToLower`: ASCII letters are lowered by adding `'a' - 'A'`,
other ASCII runes are returned as they are, and runes above `unicode.MaxASCII`
go through the Unicode case tables, the parameter `unicodeLower`. -/
def toLowerRune (unicodeLower : Char → Char) (r : Char) : Char :=
  if r.toNat ≤ 127 then
    if 65 ≤ r.toNat ∧ r.toNat ≤ 90 then Char.ofNat (r.toNat + 32) else r
  else unicodeLower r

/-- Go's `strings.ToLower` on a valid UTF-8 string: every rune is mapped by
`unicode.ToLower` (the ASCII fast path computes the same string). -/
def ToLower (unicodeLower : Char → Char) (s : String) : String :=
  ⟨s.data.map (toLowerRune unicodeLower)⟩

/-! ## internal/proxy/handler.go -/

namespace Proxy

/-- The document-model enclosure (`proxy.Enclosure`). -/
structure Enclosure where
  URL : String
  Length : String
  Type_ : String
  deriving DecidableEq, Repr

/-- The document-model entry `Item`; `Enclosure` is the pointer, `none` for nil. -/
structure Item where
  Title : String
  Link : String
  Description : String
  GUID : String
  PubDate : String
  Enclosure : Option Enclosure
  InfoHash : String
  Size : String
  Category : String
  deriving DecidableEq, Repr

/-- The Go struct `Channel`. -/
structure Channel where
  Title : String
  Link : String
  Description : String
  Items : List Item
  deriving DecidableEq, Repr

/-- The Go struct `RSS`. -/
structure RSS where
  XMLName : String
  Version : String
  Channel : Channel
  Attrs : List (String × String)
  deriving DecidableEq, Repr

/-- The Go struct `feedProxy`. -/
structure feedProxy where
  config : Config.Feed
  engine : Transform.Engine

/-- The Go struct `Handler`; `feeds` is the `map[string]*feedProxy`. The HTTP
client is the parameter `get` of `ServeHTTP`. -/
structure Handler where
  feeds : List (String × feedProxy)

/-- The two errors `NewHandler` wraps. -/
inductive HandlerError where
  | creatingEngine (feed : String) (err : Transform.EngineError)
  | compilingTransformation (feed : String) (field : String) (err : Transform.EngineError)
  deriving DecidableEq, Repr

/-- The program key `fmt.Sprintf("%s_%s", name, field)`. -/
def programKey (name field : String) : String :=
  name ++ "_" ++ field

/-- The loop `for _, t := range feed.Transformations` of `NewHandler`. -/
def compileTransformations (name : String) (engine : Transform.Engine) :
    List Config.Transformation → Except HandlerError Transform.Engine
  | [] => .ok engine
  | t :: rest =>
    match engine.Compile (programKey name t.Field) t.Expression with
    | .error err => .error (.compilingTransformation name t.Field err)
    | .ok engine1 => compileTransformations name engine1 rest

/-- The loop `for _, feed := range cfg.Feeds` of `NewHandler`. -/
def newHandlerLoop (newEnv : Except String Transform.Env) (h : Handler) :
    List Config.Feed → Except HandlerError Handler
  | [] => .ok h
  | feed :: rest =>
    match Transform.NewEngine newEnv with
    | .error err => .error (.creatingEngine feed.Name err)
    | .ok engine =>
      match compileTransformations feed.Name engine feed.Transformations with
      | .error err => .error err
      | .ok engine1 =>
        newHandlerLoop newEnv
          { feeds := (feed.Path, { config := feed, engine := engine1 }) :: h.feeds } rest

/-- Embeds `NewHandler`. -/
def NewHandler (newEnv : Except String Transform.Env) (cfg : Config) :
    Except HandlerError Handler :=
  newHandlerLoop newEnv { feeds := [] } cfg.Feeds

/-- The first statement of `transformItem`: the record built from the item,
the enclosure copied when the pointer is not nil and left zero otherwise. -/
def toRSSItem (item : Item) : Transform.RSSItem :=
  { Title := item.Title,
    Link := item.Link,
    Description := item.Description,
    GUID := item.GUID,
    PubDate := item.PubDate,
    Enclosure :=
      match item.Enclosure with
      | some enc => { URL := enc.URL, Length := enc.Length, Type_ := enc.Type_ }
      | none => { URL := "", Length := "", Type_ := "" },
    InfoHash := item.InfoHash,
    Size := item.Size,
    Category := item.Category }

/-- The two variables the rule loop of `transformItem` mutates. -/
structure ItemState where
  item : Item
  rssItem : Transform.RSSItem
  deriving DecidableEq, Repr

/-- The guard `if item.Enclosure == nil { item.Enclosure = &Enclosure{} }`
followed by a read of the pointer. -/
def ensureEnclosure (item : Item) : Enclosure :=
  match item.Enclosure with
  | some enc => enc
  | none => { URL := "", Length := "", Type_ := "" }

/-- The `switch strings.ToLower(t.Field)` of `transformItem`, on the
lower-cased key. -/
def applyResult (key result : String) (s : ItemState) : ItemState :=
  if key = "title" then
    { item := { s.item with Title := result }, rssItem := { s.rssItem with Title := result } }
  else if key = "link" then
    { item := { s.item with Link := result }, rssItem := { s.rssItem with Link := result } }
  else if key = "description" then
    { item := { s.item with Description := result },
      rssItem := { s.rssItem with Description := result } }
  else if key = "guid" then
    { item := { s.item with GUID := result }, rssItem := { s.rssItem with GUID := result } }
  else if key = "pubdate" then
    { item := { s.item with PubDate := result }, rssItem := { s.rssItem with PubDate := result } }
  else if key = "enclosureurl" ∨ key = "enclosure.url" then
    { item := { s.item with Enclosure := some { ensureEnclosure s.item with URL := result } },
      rssItem := { s.rssItem with Enclosure := { s.rssItem.Enclosure with URL := result } } }
  else if key = "enclosurelength" ∨ key = "enclosure.length" then
    { item := { s.item with Enclosure := some { ensureEnclosure s.item with Length := result } },
      rssItem := { s.rssItem with Enclosure := { s.rssItem.Enclosure with Length := result } } }
  else if key = "enclosuretype" ∨ key = "enclosure.type" then
    { item := { s.item with Enclosure := some { ensureEnclosure s.item with Type_ := result } },
      rssItem := { s.rssItem with Enclosure := { s.rssItem.Enclosure with Type_ := result } } }
  else s

/-- The error `transformItem` wraps: `evaluating <field>: <err>`. -/
inductive TransformError where
  | evaluating (field : String) (err : Transform.EngineError)
  deriving DecidableEq, Repr

/-- The loop `for _, t := range fp.config.Transformations` of `transformItem`
over the rules still to run; the state returned is the one the loop stops in,
also when it stops on an error. -/
def transformLoop (unicodeLower : Char → Char) (fp : feedProxy) :
    List Config.Transformation → ItemState → ItemState × Option TransformError
  | [], s => (s, none)
  | t :: rest, s =>
    match fp.engine.Eval (programKey fp.config.Name t.Field) s.rssItem with
    | .error err => (s, some (.evaluating t.Field err))
    | .ok result =>
      transformLoop unicodeLower fp rest (applyResult (ToLower unicodeLower t.Field) result s)

/-- Embeds `(*Handler).transformItem`: the item as the caller finds it after
the call, and the returned error. -/
def transformItem (unicodeLower : Char → Char) (fp : feedProxy) (item : Item) :
    Item × Option TransformError :=
  let r := transformLoop unicodeLower fp fp.config.Transformations
    { item := item, rssItem := toRSSItem item }
  (r.1.item, r.2)

/-- The `encoding/xml` calls of `transformFeed`, taken as parameters; byte
slices are strings. -/
structure XMLCodec where
  Unmarshal : String → Except String RSS
  MarshalIndent : RSS → Except String String

/-- The constant `xml.Header`. -/
def xmlHeader : String :=
  "<?xml version=\"1.0\" encoding=\"UTF-8\"?>\n"

/-- The three errors `transformFeed` wraps. -/
inductive FeedError where
  | parsingRSS (err : String)
  | transformingItem (i : Nat) (err : TransformError)
  | marshalingRSS (err : String)
  deriving DecidableEq, Repr

/-- The loop `for i := range rss.Channel.Items` of `transformFeed`, from
index `i` on: the items after the loop, or the first error. -/
def transformItems (unicodeLower : Char → Char) (fp : feedProxy) (i : Nat) :
    List Item → Except FeedError (List Item)
  | [] => .ok []
  | item :: rest =>
    match transformItem unicodeLower fp item with
    | (_, some err) => .error (.transformingItem i err)
    | (item1, none) =>
      match transformItems unicodeLower fp (i + 1) rest with
      | .error err => .error err
      | .ok rest1 => .ok (item1 :: rest1)

/-- Embeds `(*Handler).transformFeed`. -/
def transformFeed (xml : XMLCodec) (unicodeLower : Char → Char) (fp : feedProxy)
    (data : String) : Except FeedError String :=
  match xml.Unmarshal data with
  | .error err => .error (.parsingRSS err)
  | .ok rss =>
    match transformItems unicodeLower fp 0 rss.Channel.Items with
    | .error err => .error err
    | .ok items =>
      match xml.MarshalIndent { rss with Channel := { rss.Channel with Items := items } } with
      | .error err => .error (.marshalingRSS err)
      | .ok output => .ok (xmlHeader ++ output)

/-- What `h.client.Get(url)` followed by `io.ReadAll(resp.Body)` can give:
`Get` returns an error (no connection, timeout), or it returns a response
with a status code whose body is read or fails to be read. -/
inductive GetResult where
  | failed (err : String)
  | response (statusCode : Nat) (body : Except String String)
  deriving Repr

/-- What `ServeHTTP` writes to the `http.ResponseWriter`. -/
structure Response where
  statusCode : Nat
  contentType : Option String
  body : String
  deriving DecidableEq, Repr

/-- Go's `http.Error(w, msg, code)`. -/
def httpError (msg : String) (code : Nat) : Response :=
  { statusCode := code, contentType := some "text/plain; charset=utf-8", body := msg ++ "\n" }

/-- Embeds `(*Handler).ServeHTTP`; `get` is the HTTP client with its 30 second
timeout. -/
def ServeHTTP (xml : XMLCodec) (unicodeLower : Char → Char) (get : String → GetResult)
    (h : Handler) (path : String) : Response :=
  if path = "/healthz" ∨ path = "/readyz" ∨ path = "/livez" then
    { statusCode := 200, contentType := none, body := "ok" }
  else
    match h.feeds.lookup path with
    | none => httpError "404 page not found" 404
    | some fp =>
      match get fp.config.Upstream with
      | .failed _ => httpError "upstream error" 502
      | .response _ (.error _) => httpError "read error" 502
      | .response _ (.ok body) =>
        match transformFeed xml unicodeLower fp body with
        | .error _ => httpError "transform error" 500
        | .ok transformed =>
          { statusCode := 200, contentType := some "application/rss+xml; charset=utf-8",
            body := transformed }

end Proxy

/-! ## A fragment of the CEL environment, for the scenarios -/

namespace Sample

open Transform

/-- The CEL expression that reads the string variable `name`. -/
def readVar (name : String) : Program := fun vars =>
  match vars.lookup name with
  | some (.str s) => .ok (.string s)
  | _ => .error ("no such attribute: " ++ name)

/-- The CEL expression `name + "suffix"` on a string variable. -/
def appendToVar (name suffix : String) : Program := fun vars =>
  match vars.lookup name with
  | some (.str s) => .ok (.string (s ++ suffix))
  | _ => .error ("no such attribute: " ++ name)

/-- The CEL expression `1 / 0`, which traps when evaluated. -/
def divideByZero : Program := fun _ => .error "division by zero"

/-- The meaning cel-go gives to the expressions used below; every other
expression is rejected by this fragment. -/
def compile (expr : String) : Except String Program :=
  if expr = "title" then .ok (readVar "title")
  else if expr = "size" then .ok (readVar "size")
  else if expr = "title + \"a\"" then .ok (appendToVar "title" "a")
  else if expr = "title + \"b\"" then .ok (appendToVar "title" "b")
  else if expr = "title + \" [verified]\"" then .ok (appendToVar "title" " [verified]")
  else if expr = "1 / 0" then .ok divideByZero
  else .error "undeclared reference"

/-- The fragment as an environment whose ASTs are the planned programs. -/
def env : Env :=
  { Ast := Program, Compile := compile, Program := fun ast => .ok ast }

/-- Unicode lowering of the non-ASCII runes; the scenarios are ASCII. -/
def unicodeLower (r : Char) : Char := r

/-- Scenario A with a second rule: `title` then `enclosure.length`. -/
def torrents : Config.Feed :=
  { Name := "torrents", Path := "/torrents", Upstream := "http://upstream/torrents.xml",
    Transformations :=
      [ { Field := "title", Expression := "title + \" [verified]\"" },
        { Field := "enclosure.length", Expression := "size" } ] }

/-- Scenario B: the single rule `enclosure.length` computed by `size`. -/
def academic : Config.Feed :=
  { Name := "academic", Path := "/academic", Upstream := "http://upstream/academic.xml",
    Transformations := [ { Field := "enclosure.length", Expression := "size" } ] }

/-- The proxy `NewHandler` builds for `torrents`: the map holds the program
compiled last first. -/
def torrentsProxy : Proxy.feedProxy :=
  { config := torrents,
    engine :=
      { env := env,
        programs :=
          [ ("torrents_enclosure.length", readVar "size"),
            ("torrents_title", appendToVar "title" " [verified]") ] } }

/-- The proxy `NewHandler` builds for `academic`. -/
def academicProxy : Proxy.feedProxy :=
  { config := academic,
    engine := { env := env, programs := [ ("academic_enclosure.length", readVar "size") ] } }

/-- A feed whose rules are keyed by extension fields; the second one traps. -/
def extension : Config.Feed :=
  { Name := "ext", Path := "/ext", Upstream := "http://upstream/ext.xml",
    Transformations :=
      [ { Field := "infohash", Expression := "title" },
        { Field := "size", Expression := "1 / 0" } ] }

/-- The proxy `NewHandler` builds for `extension`. -/
def extensionProxy : Proxy.feedProxy :=
  { config := extension,
    engine :=
      { env := env,
        programs := [ ("ext_size", divideByZero), ("ext_infohash", readVar "title") ] } }

/-- A feed with the single rule `bogus`. -/
def bogus : Config.Feed :=
  { Name := "b", Path := "/b", Upstream := "http://upstream/b.xml",
    Transformations := [ { Field := "bogus", Expression := "title" } ] }

/-- The proxy `NewHandler` builds for `bogus`. -/
def bogusProxy : Proxy.feedProxy :=
  { config := bogus, engine := { env := env, programs := [ ("b_bogus", readVar "title") ] } }

/-- Two rules under the one field key `title`. -/
def twice : Config.Feed :=
  { Name := "t", Path := "/t", Upstream := "http://upstream/t.xml",
    Transformations :=
      [ { Field := "title", Expression := "title + \"a\"" },
        { Field := "title", Expression := "title + \"b\"" } ] }

/-- The proxy `NewHandler` builds for `twice`: both programs are stored under
`t_title`, the second in front of the first. -/
def twiceProxy : Proxy.feedProxy :=
  { config := twice,
    engine :=
      { env := env,
        programs :=
          [ ("t_title", appendToVar "title" "b"), ("t_title", appendToVar "title" "a") ] } }

/-- The rules of `twice` with the second key spelled `Title`. -/
def twiceCased : Config.Feed :=
  { Name := "t", Path := "/t", Upstream := "http://upstream/t.xml",
    Transformations :=
      [ { Field := "title", Expression := "title + \"a\"" },
        { Field := "Title", Expression := "title + \"b\"" } ] }

/-- The proxy `NewHandler` builds for `twiceCased`. -/
def twiceCasedProxy : Proxy.feedProxy :=
  { config := twiceCased,
    engine :=
      { env := env,
        programs :=
          [ ("t_Title", appendToVar "title" "b"), ("t_title", appendToVar "title" "a") ] } }

/-- A feed served on the path of a health endpoint. -/
def health : Config.Feed :=
  { Name := "h", Path := "/healthz", Upstream := "http://upstream/h.xml",
    Transformations := [] }

/-- The proxy `NewHandler` builds for `health`. -/
def healthProxy : Proxy.feedProxy :=
  { config := health, engine := { env := env, programs := [] } }

/-- A stand-in for `encoding/xml` on documents of one item: the bytes are the
item's title, and empty input is not a document. -/
def xml : Proxy.XMLCodec :=
  { Unmarshal := fun data =>
      if data = "" then .error "EOF"
      else .ok { XMLName := "rss", Version := "2.0",
                 Channel := { Title := "", Link := "", Description := "",
                              Items := [ { Title := data, Link := "", Description := "",
                                           GUID := "", PubDate := "", Enclosure := none,
                                           InfoHash := "", Size := "", Category := "" } ] },
                 Attrs := [] },
    MarshalIndent := fun rss => .ok (String.join (rss.Channel.Items.map (·.Title))) }

/-- An entry with an enclosure and all three extension fields set. -/
def fullEntry : Proxy.Item :=
  { Title := "Paper", Link := "http://l", Description := "d", GUID := "g", PubDate := "p",
    Enclosure := some { URL := "http://e", Length := "7", Type_ := "application/x-bittorrent" },
    InfoHash := "abc", Size := "10", Category := "cs" }

/-- An entry with the given title and size and nothing else. -/
def entry (title size : String) : Proxy.Item :=
  { Title := title, Link := "", Description := "", GUID := "", PubDate := "",
    Enclosure := none, InfoHash := "", Size := size, Category := "" }

end Sample

/-! ## Theorems -/

/-- The loop accepts exactly the lists whose feeds are complete and whose paths
are new with respect to `paths` and to each other. -/
theorem Config.validateLoop_eq_none_iff (paths : List String) (i : Nat) (feeds : List Config.Feed) :
    Config.validateLoop paths i feeds = none ↔
      (∀ f ∈ feeds, f.Name ≠ "" ∧ f.Path ≠ "" ∧ f.Upstream ≠ "") ∧
      (∀ f ∈ feeds, f.Path ∉ paths) ∧ (feeds.map (·.Path)).Nodup := by
  induction feeds generalizing paths i with
  | nil => simp [Config.validateLoop]
  | cons f rest ih =>
    unfold Config.validateLoop
    by_cases h1 : f.Name = ""
    · simp [h1]
    by_cases h2 : f.Path = ""
    · simp [h1, h2]
    by_cases h3 : f.Upstream = ""
    · simp [h1, h2, h3]
    by_cases h4 : f.Path ∈ paths
    · simp [h1, h2, h3, h4]
    simp only [h1, h2, h3, h4, if_false, ih, List.mem_cons, List.map_cons, List.nodup_cons,
      List.mem_map, not_exists, not_and, not_or]
    constructor
    · rintro ⟨ha, hb, hc⟩
      refine ⟨?_, ?_, ?_, hc⟩
      · rintro g (rfl | hg)
        · exact ⟨h1, h2, h3⟩
        · exact ha g hg
      · rintro g (rfl | hg)
        · exact h4
        · exact (hb g hg).2
      · intro g hg heq
        exact (hb g hg).1 heq
    · rintro ⟨ha, hb, hc, hd⟩
      refine ⟨fun g hg => ha g (Or.inr hg), fun g hg => ⟨fun heq => hc g hg heq, hb g (Or.inr hg)⟩, hd⟩

/-- C7: `Config.validate` returns no error exactly when every feed has a
non-empty name, path and upstream and the feeds' paths are pairwise distinct;
in particular two complete feeds sharing a name but not a path are accepted. -/
theorem C7_validate_iff :
    (∀ c : Config, c.validate = none ↔
      (∀ f ∈ c.Feeds, f.Name ≠ "" ∧ f.Path ≠ "" ∧ f.Upstream ≠ "") ∧
      (c.Feeds.map (·.Path)).Nodup) ∧
    (∀ (name p1 p2 u1 u2 : String) (t1 t2 : List Config.Transformation),
      name ≠ "" → p1 ≠ "" → p2 ≠ "" → u1 ≠ "" → u2 ≠ "" → p1 ≠ p2 →
      Config.validate ⟨[⟨name, p1, u1, t1⟩, ⟨name, p2, u2, t2⟩]⟩ = none) := by
  have main : ∀ c : Config, c.validate = none ↔
      (∀ f ∈ c.Feeds, f.Name ≠ "" ∧ f.Path ≠ "" ∧ f.Upstream ≠ "") ∧
      (c.Feeds.map (·.Path)).Nodup := by
    intro c
    simp [Config.validate, Config.validateLoop_eq_none_iff]
  refine ⟨main, ?_⟩
  intro name p1 p2 u1 u2 t1 t2 hn hp1 hp2 hu1 hu2 hne
  rw [main]
  simp [hn, hp1, hp2, hu1, hu2, hne]

/-- C7 at two feeds named `a` on the paths `/x` and `/y`. -/
theorem C7_validate_iff_witness :
    Config.validate ⟨[⟨"a", "/x", "http://u", []⟩, ⟨"a", "/y", "http://v", []⟩]⟩ = none :=
  C7_validate_iff.2 "a" "/x" "/y" "http://u" "http://v" [] []
    (by decide) (by decide) (by decide) (by decide) (by decide) (by decide)


/-! ### The rule loop of `transformItem` -/

open Proxy Transform

/-- Running `r1 ++ r2` is running `r1` and, when no error stopped it, `r2`
from the state `r1` ended in. -/
theorem transformLoop_append (u : Char → Char) (fp : feedProxy)
    (r1 r2 : List Config.Transformation) (s : ItemState) :
    transformLoop u fp (r1 ++ r2) s =
      match transformLoop u fp r1 s with
      | (s1, none) => transformLoop u fp r2 s1
      | (s1, some err) => (s1, some err) := by
  induction r1 generalizing s with
  | nil => simp [transformLoop]
  | cons t rest ih =>
    simp only [List.cons_append, transformLoop]
    cases h : fp.engine.Eval (programKey fp.config.Name t.Field) s.rssItem with
    | error e => simp
    | ok r => simp [ih]

/-- A property of the loop state that every dispatch arm keeps holds in the
state the loop stops in. -/
theorem transformLoop_preserves (P : ItemState → Prop)
    (hP : ∀ k r s, P s → P (applyResult k r s))
    (u : Char → Char) (fp : feedProxy) (rules : List Config.Transformation) (s : ItemState)
    (hs : P s) : P (transformLoop u fp rules s).1 := by
  induction rules generalizing s with
  | nil => simpa [transformLoop] using hs
  | cons t rest ih =>
    simp only [transformLoop]
    cases h : fp.engine.Eval (programKey fp.config.Name t.Field) s.rssItem with
    | error e => simpa using hs
    | ok r => simpa using ih _ (hP _ _ _ hs)

/-- Every dispatch arm writes the same result to the item and to the record. -/
theorem applyResult_mirror (k r : String) (s : ItemState)
    (hs : s.rssItem = toRSSItem s.item) :
    (applyResult k r s).rssItem = toRSSItem (applyResult k r s).item := by
  unfold applyResult
  split_ifs <;> simp [hs, toRSSItem, ensureEnclosure] <;> cases s.item.Enclosure <;> simp

/-- No dispatch arm writes `InfoHash`, `Size` or `Category`. -/
theorem applyResult_extension (k r : String) (s : ItemState) :
    (applyResult k r s).item.InfoHash = s.item.InfoHash ∧
    (applyResult k r s).item.Size = s.item.Size ∧
    (applyResult k r s).item.Category = s.item.Category ∧
    (applyResult k r s).rssItem.InfoHash = s.rssItem.InfoHash ∧
    (applyResult k r s).rssItem.Size = s.rssItem.Size ∧
    (applyResult k r s).rssItem.Category = s.rssItem.Category := by
  unfold applyResult
  split_ifs <;> simp

/-- A key outside the eleven case labels falls through the switch. -/
theorem applyResult_unknown (k r : String) (s : ItemState)
    (hk : k ∉ ["title", "link", "description", "guid", "pubdate", "enclosureurl",
      "enclosure.url", "enclosurelength", "enclosure.length", "enclosuretype",
      "enclosure.type"]) :
    applyResult k r s = s := by
  simp only [List.mem_cons, List.mem_singleton, List.not_mem_nil, not_or, or_false] at hk
  obtain ⟨h1, h2, h3, h4, h5, h6, h7, h8, h9, h10, h11⟩ := hk
  simp [applyResult, h1, h2, h3, h4, h5, h6, h7, h8, h9, h10, h11]

/-- Only the six enclosure labels touch the enclosure pointer. -/
theorem applyResult_enclosure (k r : String) (s : ItemState)
    (hk : k ∉ ["enclosureurl", "enclosure.url", "enclosurelength", "enclosure.length",
      "enclosuretype", "enclosure.type"]) :
    (applyResult k r s).item.Enclosure = s.item.Enclosure := by
  simp only [List.mem_cons, List.mem_singleton, List.not_mem_nil, not_or, or_false] at hk
  obtain ⟨h6, h7, h8, h9, h10, h11⟩ := hk
  unfold applyResult
  simp only [h6, h7, h8, h9, h10, h11, or_self, if_false]
  split_ifs <;> rfl

/-- C9: in `transformItem`, the state `st` reached after any successfully
applied prefix `done` of the rules (the empty prefix included) has the record
equal to the snapshot of the item, field by field, the enclosure sub-fields
being the item's when it has an enclosure and empty when it has none; the
call continues from `st`, so the next rule is evaluated on the snapshot of the
item's current state. -/
theorem C9_mirror_invariant (u : Char → Char) (fp : feedProxy) (item : Item)
    (done todo : List Config.Transformation) (st : ItemState)
    (hrules : fp.config.Transformations = done ++ todo)
    (hdone : transformLoop u fp done { item := item, rssItem := toRSSItem item } = (st, none)) :
    (st.rssItem.Title = st.item.Title ∧ st.rssItem.Link = st.item.Link ∧
      st.rssItem.Description = st.item.Description ∧ st.rssItem.GUID = st.item.GUID ∧
      st.rssItem.PubDate = st.item.PubDate ∧ st.rssItem.InfoHash = st.item.InfoHash ∧
      st.rssItem.Size = st.item.Size ∧ st.rssItem.Category = st.item.Category ∧
      (∀ enc, st.item.Enclosure = some enc →
        st.rssItem.Enclosure = { URL := enc.URL, Length := enc.Length, Type_ := enc.Type_ }) ∧
      (st.item.Enclosure = none →
        st.rssItem.Enclosure = { URL := "", Length := "", Type_ := "" })) ∧
    st.rssItem = toRSSItem st.item ∧
    transformItem u fp item =
      ((transformLoop u fp todo st).1.item, (transformLoop u fp todo st).2) ∧
    (∀ t rest, todo = t :: rest →
      transformLoop u fp todo st =
        match fp.engine.Eval (programKey fp.config.Name t.Field) (toRSSItem st.item) with
        | .error err => (st, some (.evaluating t.Field err))
        | .ok result => transformLoop u fp rest (applyResult (ToLower u t.Field) result st)) := by
  have hmirror : st.rssItem = toRSSItem st.item := by
    have := transformLoop_preserves (fun s => s.rssItem = toRSSItem s.item)
      (fun k r s hs => applyResult_mirror k r s hs) u fp done
      { item := item, rssItem := toRSSItem item } rfl
    rw [hdone] at this
    exact this
  refine ⟨?_, hmirror, ?_, ?_⟩
  · rw [hmirror]
    refine ⟨rfl, rfl, rfl, rfl, rfl, rfl, rfl, rfl, ?_, ?_⟩
    · intro enc henc
      simp [toRSSItem, henc]
    · intro henc
      simp [toRSSItem, henc]
  · simp only [transformItem, hrules, transformLoop_append, hdone]
  · rintro t rest rfl
    rw [← hmirror]
    simp only [transformLoop]

/-- C9 on the feed `torrents` after its first rule: the record mirrors the
item whose title is already rewritten. -/
theorem C9_mirror_invariant_witness :
    NewHandler (.ok Sample.env) ⟨[Sample.torrents]⟩ =
      .ok { feeds := [("/torrents", Sample.torrentsProxy)] } ∧
    Sample.torrentsProxy.config.Transformations =
      [⟨"title", "title + \" [verified]\""⟩] ++ [⟨"enclosure.length", "size"⟩] ∧
    transformLoop Sample.unicodeLower Sample.torrentsProxy
      [⟨"title", "title + \" [verified]\""⟩]
      { item := Sample.entry "Ubuntu ISO" "1048576",
        rssItem := toRSSItem (Sample.entry "Ubuntu ISO" "1048576") } =
      ({ item := Sample.entry "Ubuntu ISO [verified]" "1048576",
         rssItem := toRSSItem (Sample.entry "Ubuntu ISO [verified]" "1048576") }, none) ∧
    transformItem Sample.unicodeLower Sample.torrentsProxy (Sample.entry "Ubuntu ISO" "1048576") =
      ((transformLoop Sample.unicodeLower Sample.torrentsProxy [⟨"enclosure.length", "size"⟩]
          { item := Sample.entry "Ubuntu ISO [verified]" "1048576",
            rssItem := toRSSItem (Sample.entry "Ubuntu ISO [verified]" "1048576") }).1.item,
       (transformLoop Sample.unicodeLower Sample.torrentsProxy [⟨"enclosure.length", "size"⟩]
          { item := Sample.entry "Ubuntu ISO [verified]" "1048576",
            rssItem := toRSSItem (Sample.entry "Ubuntu ISO [verified]" "1048576") }).2) :=
  ⟨rfl, rfl, by decide,
    (C9_mirror_invariant Sample.unicodeLower Sample.torrentsProxy
      (Sample.entry "Ubuntu ISO" "1048576")
      [⟨"title", "title + \" [verified]\""⟩] [⟨"enclosure.length", "size"⟩]
      { item := Sample.entry "Ubuntu ISO [verified]" "1048576",
        rssItem := toRSSItem (Sample.entry "Ubuntu ISO [verified]" "1048576") }
      rfl (by decide)).2.2.1⟩

/-- The loop never changes the extension fields, in the item or the record. -/
theorem transformLoop_extension (u : Char → Char) (fp : feedProxy)
    (rules : List Config.Transformation) (item : Item) :
    let st := (transformLoop u fp rules { item := item, rssItem := toRSSItem item }).1
    (st.item.InfoHash = item.InfoHash ∧ st.item.Size = item.Size ∧
      st.item.Category = item.Category) ∧
    (st.rssItem.InfoHash = item.InfoHash ∧ st.rssItem.Size = item.Size ∧
      st.rssItem.Category = item.Category) := by
  refine transformLoop_preserves
    (fun s => (s.item.InfoHash = item.InfoHash ∧ s.item.Size = item.Size ∧
        s.item.Category = item.Category) ∧
      (s.rssItem.InfoHash = item.InfoHash ∧ s.rssItem.Size = item.Size ∧
        s.rssItem.Category = item.Category)) ?_ u fp rules _ ?_
  · intro k r s hs
    obtain ⟨h1, h2, h3, h4, h5, h6⟩ := applyResult_extension k r s
    simp only [h1, h2, h3, h4, h5, h6]
    exact hs
  · exact ⟨⟨rfl, rfl, rfl⟩, ⟨rfl, rfl, rfl⟩⟩

/-- C10: whatever the rules (also rules keyed `infohash`, `size` or
`category`) and whether `transformItem` succeeds or fails, the entry's
InfoHash, Size and Category after the call are those before it, and the
variables `infohash`, `size` and `category` (flat and under `item`) that any
rule `t` is evaluated with hold those original values. -/
theorem C10_extension_fields_untouched (u : Char → Char) (fp : feedProxy) (item : Item) :
    ((transformItem u fp item).1.InfoHash = item.InfoHash ∧
      (transformItem u fp item).1.Size = item.Size ∧
      (transformItem u fp item).1.Category = item.Category) ∧
    (∀ (done : List Config.Transformation) (t : Config.Transformation)
      (todo : List Config.Transformation) (st : ItemState),
      fp.config.Transformations = done ++ t :: todo →
      transformLoop u fp done { item := item, rssItem := toRSSItem item } = (st, none) →
      (evalVars st.rssItem).lookup "infohash" = some (.str item.InfoHash) ∧
      (evalVars st.rssItem).lookup "size" = some (.str item.Size) ∧
      (evalVars st.rssItem).lookup "category" = some (.str item.Category) ∧
      ∃ m, (evalVars st.rssItem).lookup "item" = some (.map m) ∧
        m.lookup "infohash" = some item.InfoHash ∧
        m.lookup "size" = some item.Size ∧
        m.lookup "category" = some item.Category) := by
  constructor
  · exact (transformLoop_extension u fp fp.config.Transformations item).1
  · intro done t todo st _ hdone
    have h := (transformLoop_extension u fp done item).2
    rw [hdone] at h
    obtain ⟨h1, h2, h3⟩ := h
    simp only at h1 h2 h3
    refine ⟨?_, ?_, ?_, _, rfl, ?_, ?_, ?_⟩ <;>
      simp [evalVars, List.lookup, h1, h2, h3]

/-- C10 on the feed `ext`, whose rules are keyed `infohash` and `size` and
whose second rule traps: the entry comes back unchanged with the error, and
the second rule was evaluated with `size` bound to the original `10`. -/
theorem C10_extension_fields_untouched_witness :
    NewHandler (.ok Sample.env) ⟨[Sample.extension]⟩ =
      .ok { feeds := [("/ext", Sample.extensionProxy)] } ∧
    transformItem Sample.unicodeLower Sample.extensionProxy Sample.fullEntry =
      (Sample.fullEntry,
        some (.evaluating "size" (.evaluating "ext_size" "division by zero"))) ∧
    (transformItem Sample.unicodeLower Sample.extensionProxy Sample.fullEntry).1.InfoHash =
      "abc" ∧
    Sample.extensionProxy.config.Transformations =
      [⟨"infohash", "title"⟩] ++ ⟨"size", "1 / 0"⟩ :: [] ∧
    transformLoop Sample.unicodeLower Sample.extensionProxy [⟨"infohash", "title"⟩]
      { item := Sample.fullEntry, rssItem := toRSSItem Sample.fullEntry } =
      ({ item := Sample.fullEntry, rssItem := toRSSItem Sample.fullEntry }, none) ∧
    (evalVars (toRSSItem Sample.fullEntry)).lookup "size" = some (.str "10") :=
  ⟨rfl, by decide,
    (C10_extension_fields_untouched Sample.unicodeLower Sample.extensionProxy
      Sample.fullEntry).1.1,
    rfl, by decide,
    ((C10_extension_fields_untouched Sample.unicodeLower Sample.extensionProxy
      Sample.fullEntry).2 [⟨"infohash", "title"⟩] ⟨"size", "1 / 0"⟩ []
      { item := Sample.fullEntry, rssItem := toRSSItem Sample.fullEntry }
      rfl (by decide)).2.1⟩

/-- C4: a single rule whose lower-cased key is none of the case labels of the
switch and whose evaluation succeeds makes `transformItem` return no error
and the entry exactly as it was: every field, the enclosure pointer and its
sub-fields included. The case labels are the eleven keys listed: they are
exactly the lower-cased keys on which the switch can change the state. -/
theorem C4_unknown_key_noop :
    (∀ (u : Char → Char) (fp : feedProxy) (item : Item) (t : Config.Transformation)
      (r : String),
      fp.config.Transformations = [t] →
      ToLower u t.Field ∉ ["title", "link", "description", "guid", "pubdate",
        "enclosureurl", "enclosure.url", "enclosurelength", "enclosure.length",
        "enclosuretype", "enclosure.type"] →
      fp.engine.Eval (programKey fp.config.Name t.Field) (toRSSItem item) = .ok r →
      transformItem u fp item = (item, none)) ∧
    (∀ k : String,
      k ∈ ["title", "link", "description", "guid", "pubdate", "enclosureurl",
        "enclosure.url", "enclosurelength", "enclosure.length", "enclosuretype",
        "enclosure.type"] ↔ ∃ r s, applyResult k r s ≠ s) := by
  constructor
  · intro u fp item t r hrules hkey heval
    simp [transformItem, hrules, transformLoop, heval, applyResult_unknown _ _ _ hkey]
  · intro k
    constructor
    · intro hk
      refine ⟨"r", { item := Sample.entry "" "", rssItem := toRSSItem (Sample.entry "" "") }, ?_⟩
      simp only [List.mem_cons, List.mem_singleton, List.not_mem_nil, or_false] at hk
      rcases hk with h | h | h | h | h | h | h | h | h | h | h <;> subst h <;> decide
    · rintro ⟨r, s, hne⟩
      by_contra hk
      exact hne (applyResult_unknown k r s hk)

/-- C4 on the feed `b` with the rule `bogus` computed by `title`. -/
theorem C4_unknown_key_noop_witness :
    NewHandler (.ok Sample.env) ⟨[Sample.bogus]⟩ =
      .ok { feeds := [("/b", Sample.bogusProxy)] } ∧
    Sample.bogusProxy.engine.Eval (programKey "b" "bogus") (toRSSItem Sample.fullEntry) =
      .ok "Paper" ∧
    transformItem Sample.unicodeLower Sample.bogusProxy Sample.fullEntry =
      (Sample.fullEntry, none) :=
  ⟨rfl, rfl,
    C4_unknown_key_noop.1 Sample.unicodeLower Sample.bogusProxy Sample.fullEntry
      ⟨"bogus", "title"⟩ "Paper" rfl (by decide) rfl⟩

/-- Rules whose lower-cased keys are not enclosure labels leave the enclosure
pointer as it is. -/
theorem transformLoop_enclosure (u : Char → Char) (fp : feedProxy)
    (rules : List Config.Transformation) (s : ItemState)
    (hk : ∀ t ∈ rules, ToLower u t.Field ∉ ["enclosureurl", "enclosure.url",
      "enclosurelength", "enclosure.length", "enclosuretype", "enclosure.type"]) :
    (transformLoop u fp rules s).1.item.Enclosure = s.item.Enclosure := by
  induction rules generalizing s with
  | nil => simp [transformLoop]
  | cons t rest ih =>
    simp only [transformLoop]
    cases h : fp.engine.Eval (programKey fp.config.Name t.Field) s.rssItem with
    | error e => simp
    | ok r =>
      simp only
      rw [ih _ (fun t1 ht1 => hk t1 (List.mem_cons_of_mem _ ht1)),
        applyResult_enclosure _ _ _ (hk t (List.mem_cons_self _ _))]

/-- C2: for an entry with no enclosure, (a) when no rule's lower-cased key is
one of the six enclosure labels and all evaluations succeed, `transformItem`
leaves the entry without an enclosure; (b) when the only rule is keyed
`enclosure.length` and evaluates to `r`, `transformItem` succeeds and leaves
the entry with an enclosure whose URL and Type are empty and whose Length is
`r`, every other field as before. -/
theorem C2_lazy_enclosure :
    (∀ (u : Char → Char) (fp : feedProxy) (item : Item),
      item.Enclosure = none →
      (∀ t ∈ fp.config.Transformations, ToLower u t.Field ∉ ["enclosureurl", "enclosure.url",
        "enclosurelength", "enclosure.length", "enclosuretype", "enclosure.type"]) →
      (transformItem u fp item).2 = none →
      (transformItem u fp item).1.Enclosure = none) ∧
    (∀ (u : Char → Char) (fp : feedProxy) (item : Item) (e r : String),
      item.Enclosure = none →
      fp.config.Transformations = [⟨"enclosure.length", e⟩] →
      fp.engine.Eval (programKey fp.config.Name "enclosure.length") (toRSSItem item) = .ok r →
      transformItem u fp item =
        ({ item with Enclosure := some { URL := "", Length := r, Type_ := "" } }, none)) := by
  constructor
  · intro u fp item hnone hkeys _
    simp only [transformItem]
    rw [transformLoop_enclosure u fp _ _ hkeys]
    exact hnone
  · intro u fp item e r hnone hrules heval
    have hlow : ToLower u "enclosure.length" = "enclosure.length" := rfl
    simp [transformItem, hrules, transformLoop, heval, hlow, applyResult, ensureEnclosure, hnone]

/-- C2 on Scenario B (rule `enclosure.length` computed by `size`, entry with
size `1048576` and no enclosure) and, for (a), on the feed `b` whose only
rule is keyed `bogus`. -/
theorem C2_lazy_enclosure_witness :
    NewHandler (.ok Sample.env) ⟨[Sample.academic]⟩ =
      .ok { feeds := [("/academic", Sample.academicProxy)] } ∧
    (transformItem Sample.unicodeLower Sample.bogusProxy (Sample.entry "Paper" "1048576")).2 =
      none ∧
    (transformItem Sample.unicodeLower Sample.bogusProxy
      (Sample.entry "Paper" "1048576")).1.Enclosure = none ∧
    Sample.academicProxy.engine.Eval (programKey "academic" "enclosure.length")
      (toRSSItem (Sample.entry "Paper" "1048576")) = .ok "1048576" ∧
    transformItem Sample.unicodeLower Sample.academicProxy (Sample.entry "Paper" "1048576") =
      ({ Sample.entry "Paper" "1048576" with
          Enclosure := some { URL := "", Length := "1048576", Type_ := "" } }, none) :=
  ⟨rfl, by decide,
    C2_lazy_enclosure.1 Sample.unicodeLower Sample.bogusProxy (Sample.entry "Paper" "1048576")
      rfl (by decide) (by decide),
    rfl,
    C2_lazy_enclosure.2 Sample.unicodeLower Sample.academicProxy
      (Sample.entry "Paper" "1048576") "size" "1048576" rfl rfl rfl⟩

/-- C5: the bindings `Eval` builds from any record bind each of the eleven
flat names to the string the nested `item` map holds under the same key; for
the record `transformItem` takes from an entry that string is the entry's
field, the enclosure sub-field when the entry has an enclosure and the empty
string when it has none. -/
theorem C5_context_sync :
    (∀ r : RSSItem, ∃ m, (evalVars r).lookup "item" = some (.map m) ∧
      ∀ name ∈ ["title", "link", "description", "guid", "pubDate", "enclosureUrl",
        "enclosureLength", "enclosureType", "infohash", "size", "category"],
        ∃ v, (evalVars r).lookup name = some (.str v) ∧ m.lookup name = some v) ∧
    (∀ item : Item, ∃ m, (evalVars (toRSSItem item)).lookup "item" = some (.map m) ∧
      ((evalVars (toRSSItem item)).lookup "title" = some (.str item.Title) ∧
        m.lookup "title" = some item.Title) ∧
      ((evalVars (toRSSItem item)).lookup "link" = some (.str item.Link) ∧
        m.lookup "link" = some item.Link) ∧
      ((evalVars (toRSSItem item)).lookup "description" = some (.str item.Description) ∧
        m.lookup "description" = some item.Description) ∧
      ((evalVars (toRSSItem item)).lookup "guid" = some (.str item.GUID) ∧
        m.lookup "guid" = some item.GUID) ∧
      ((evalVars (toRSSItem item)).lookup "pubDate" = some (.str item.PubDate) ∧
        m.lookup "pubDate" = some item.PubDate) ∧
      ((evalVars (toRSSItem item)).lookup "enclosureUrl" =
          some (.str (match item.Enclosure with | some enc => enc.URL | none => "")) ∧
        m.lookup "enclosureUrl" =
          some (match item.Enclosure with | some enc => enc.URL | none => "")) ∧
      ((evalVars (toRSSItem item)).lookup "enclosureLength" =
          some (.str (match item.Enclosure with | some enc => enc.Length | none => "")) ∧
        m.lookup "enclosureLength" =
          some (match item.Enclosure with | some enc => enc.Length | none => "")) ∧
      ((evalVars (toRSSItem item)).lookup "enclosureType" =
          some (.str (match item.Enclosure with | some enc => enc.Type_ | none => "")) ∧
        m.lookup "enclosureType" =
          some (match item.Enclosure with | some enc => enc.Type_ | none => "")) ∧
      ((evalVars (toRSSItem item)).lookup "infohash" = some (.str item.InfoHash) ∧
        m.lookup "infohash" = some item.InfoHash) ∧
      ((evalVars (toRSSItem item)).lookup "size" = some (.str item.Size) ∧
        m.lookup "size" = some item.Size) ∧
      ((evalVars (toRSSItem item)).lookup "category" = some (.str item.Category) ∧
        m.lookup "category" = some item.Category)) ∧
    (∀ title link description guid pubDate infohash size category : String,
      ∃ m, (evalVars (toRSSItem ⟨title, link, description, guid, pubDate, none,
          infohash, size, category⟩)).lookup "item" = some (.map m) ∧
        (evalVars (toRSSItem ⟨title, link, description, guid, pubDate, none,
          infohash, size, category⟩)).lookup "enclosureUrl" = some (.str "") ∧
        (evalVars (toRSSItem ⟨title, link, description, guid, pubDate, none,
          infohash, size, category⟩)).lookup "enclosureLength" = some (.str "") ∧
        (evalVars (toRSSItem ⟨title, link, description, guid, pubDate, none,
          infohash, size, category⟩)).lookup "enclosureType" = some (.str "") ∧
        m.lookup "enclosureUrl" = some "" ∧ m.lookup "enclosureLength" = some "" ∧
        m.lookup "enclosureType" = some "") := by
  refine ⟨?_, ?_, ?_⟩
  · intro r
    refine ⟨_, rfl, ?_⟩
    intro name hname
    simp only [List.mem_cons, List.mem_singleton, List.not_mem_nil, or_false] at hname
    rcases hname with h | h | h | h | h | h | h | h | h | h | h <;> subst h <;>
      exact ⟨_, rfl, rfl⟩
  · intro item
    refine ⟨_, rfl, ?_⟩
    cases hE : item.Enclosure <;>
      refine ⟨⟨?_, ?_⟩, ⟨?_, ?_⟩, ⟨?_, ?_⟩, ⟨?_, ?_⟩, ⟨?_, ?_⟩, ⟨?_, ?_⟩, ⟨?_, ?_⟩, ⟨?_, ?_⟩,
        ⟨?_, ?_⟩, ⟨?_, ?_⟩, ⟨?_, ?_⟩⟩ <;>
      simp [evalVars, toRSSItem, List.lookup, hE]
  · intro title link description guid pubDate infohash size category
    exact ⟨_, rfl, rfl, rfl, rfl, rfl, rfl, rfl⟩

/-- C3: for one expression, feed name and entry, the single-rule feeds keyed
`enclosureurl`, `enclosureUrl` and `enclosure.url` behave alike: either
`NewHandler` fails for all three, or it builds three proxies on which
`transformItem` either fails three times, leaving the entry as it was, or
succeeds three times with the same final entry. -/
theorem C3_alias_equivalence (newEnv : Except String Env) (u : Char → Char)
    (name path upstream e : String) (item : Item) :
    ((∃ err, NewHandler newEnv ⟨[⟨name, path, upstream, [⟨"enclosureurl", e⟩]⟩]⟩ =
        .error err) ∧
      (∃ err, NewHandler newEnv ⟨[⟨name, path, upstream, [⟨"enclosureUrl", e⟩]⟩]⟩ =
        .error err) ∧
      (∃ err, NewHandler newEnv ⟨[⟨name, path, upstream, [⟨"enclosure.url", e⟩]⟩]⟩ =
        .error err)) ∨
    (∃ fp1 fp2 fp3 : feedProxy,
      NewHandler newEnv ⟨[⟨name, path, upstream, [⟨"enclosureurl", e⟩]⟩]⟩ =
        .ok { feeds := [(path, fp1)] } ∧
      NewHandler newEnv ⟨[⟨name, path, upstream, [⟨"enclosureUrl", e⟩]⟩]⟩ =
        .ok { feeds := [(path, fp2)] } ∧
      NewHandler newEnv ⟨[⟨name, path, upstream, [⟨"enclosure.url", e⟩]⟩]⟩ =
        .ok { feeds := [(path, fp3)] } ∧
      (((∃ err, transformItem u fp1 item = (item, some err)) ∧
          (∃ err, transformItem u fp2 item = (item, some err)) ∧
          (∃ err, transformItem u fp3 item = (item, some err))) ∨
        (∃ item1, transformItem u fp1 item = (item1, none) ∧
          transformItem u fp2 item = (item1, none) ∧
          transformItem u fp3 item = (item1, none)))) := by
  have l1 : ToLower u "enclosureurl" = "enclosureurl" := rfl
  have l2 : ToLower u "enclosureUrl" = "enclosureurl" := rfl
  have l3 : ToLower u "enclosure.url" = "enclosure.url" := rfl
  cases newEnv with
  | error msg =>
    left
    simp [NewHandler, newHandlerLoop, NewEngine]
  | ok env =>
    cases hc : env.Compile e with
    | error msg =>
      left
      simp [NewHandler, newHandlerLoop, NewEngine, compileTransformations, Engine.Compile, hc]
    | ok ast =>
      cases hp : env.Program ast with
      | error msg =>
        left
        simp [NewHandler, newHandlerLoop, NewEngine, compileTransformations, Engine.Compile,
          hc, hp]
      | ok prg =>
        right
        refine ⟨⟨⟨name, path, upstream, [⟨"enclosureurl", e⟩]⟩,
            ⟨env, [(programKey name "enclosureurl", prg)]⟩⟩,
          ⟨⟨name, path, upstream, [⟨"enclosureUrl", e⟩]⟩,
            ⟨env, [(programKey name "enclosureUrl", prg)]⟩⟩,
          ⟨⟨name, path, upstream, [⟨"enclosure.url", e⟩]⟩,
            ⟨env, [(programKey name "enclosure.url", prg)]⟩⟩, ?_, ?_, ?_, ?_⟩
        · simp [NewHandler, newHandlerLoop, NewEngine, compileTransformations, Engine.Compile,
            hc, hp]
        · simp [NewHandler, newHandlerLoop, NewEngine, compileTransformations, Engine.Compile,
            hc, hp]
        · simp [NewHandler, newHandlerLoop, NewEngine, compileTransformations, Engine.Compile,
            hc, hp]
        · cases hv : prg (evalVars (toRSSItem item)) with
          | error msg =>
            left
            simp [transformItem, transformLoop, Engine.Eval, List.lookup, hv]
          | ok out =>
            right
            simp [transformItem, transformLoop, Engine.Eval, List.lookup, hv, l1, l2, l3,
              applyResult]

/-! ### Every declared rule has a compiled program -/

/-- A successful `Compile` binds `name` in front of the programs held before. -/
theorem Engine.Compile_programs (e e1 : Engine) (name expr : String)
    (h : e.Compile name expr = .ok e1) :
    ∃ prg, e1.programs = (name, prg) :: e.programs := by
  unfold Engine.Compile at h
  cases hc : e.env.Compile expr with
  | error msg => simp [hc] at h
  | ok ast =>
    cases hp : e.env.Program ast with
    | error msg => simp [hc, hp] at h
    | ok prg =>
      simp only [hc, hp, Except.ok.injEq] at h
      exact ⟨prg, by rw [← h]⟩

/-- After the compile loop of `NewHandler`, the keys bound before are still
bound and the key of every rule of the loop is bound. -/
theorem compileTransformations_keys (name : String) (rules : List Config.Transformation)
    (engine engine1 : Engine)
    (h : compileTransformations name engine rules = .ok engine1) :
    (∀ k, (engine.programs.lookup k).isSome → (engine1.programs.lookup k).isSome) ∧
    (∀ t ∈ rules, (engine1.programs.lookup (programKey name t.Field)).isSome) := by
  induction rules generalizing engine with
  | nil =>
    simp only [compileTransformations, Except.ok.injEq] at h
    subst h
    simp
  | cons t rest ih =>
    simp only [compileTransformations] at h
    cases hc : engine.Compile (programKey name t.Field) t.Expression with
    | error err => simp [hc] at h
    | ok e1 =>
      simp only [hc] at h
      obtain ⟨prg, hprg⟩ := Engine.Compile_programs _ _ _ _ hc
      obtain ⟨hkeep, hnew⟩ := ih e1 h
      have hstep : ∀ k, (engine.programs.lookup k).isSome → (e1.programs.lookup k).isSome := by
        intro k hk
        rw [hprg, List.lookup_cons]
        split
        · rfl
        · exact hk
      refine ⟨fun k hk => hkeep k (hstep k hk), ?_⟩
      intro t1 ht1
      rcases List.mem_cons.mp ht1 with rfl | hrest
      · apply hkeep
        rw [hprg, List.lookup_cons]
        simp
      · exact hnew t1 hrest

/-- The feeds map `NewHandler` returns holds, beside what it held at the start
of the loop, one proxy per feed, whose engine binds the key of each of the
feed's rules. -/
theorem newHandlerLoop_feeds (newEnv : Except String Env) (feeds : List Config.Feed)
    (h0 h : Handler) (hok : newHandlerLoop newEnv h0 feeds = .ok h) :
    (∀ entry ∈ h0.feeds, entry ∈ h.feeds) ∧
    (∀ feed ∈ feeds, ∃ fp, (feed.Path, fp) ∈ h.feeds ∧ fp.config = feed) ∧
    (∀ path fp, (path, fp) ∈ h.feeds → (path, fp) ∈ h0.feeds ∨
      (fp.config ∈ feeds ∧ path = fp.config.Path ∧
        ∀ t ∈ fp.config.Transformations,
          (fp.engine.programs.lookup (programKey fp.config.Name t.Field)).isSome)) := by
  induction feeds generalizing h0 with
  | nil =>
    simp only [newHandlerLoop, Except.ok.injEq] at hok
    subst hok
    simp
  | cons feed rest ih =>
    simp only [newHandlerLoop] at hok
    cases hn : NewEngine newEnv with
    | error err => simp [hn] at hok
    | ok engine =>
      simp only [hn] at hok
      cases hc : compileTransformations feed.Name engine feed.Transformations with
      | error err => simp [hc] at hok
      | ok engine1 =>
        simp only [hc] at hok
        obtain ⟨hsub, hall, hinv⟩ := ih _ hok
        have hkeys := (compileTransformations_keys _ _ _ _ hc).2
        refine ⟨fun entry he => hsub entry (List.mem_cons_of_mem _ he), ?_, ?_⟩
        · intro f hf
          rcases List.mem_cons.mp hf with rfl | hrest
          · exact ⟨_, hsub _ (List.mem_cons_self _ _), rfl⟩
          · exact hall f hrest
        · intro path fp hmem
          rcases hinv path fp hmem with hold | ⟨h1, h2, h3⟩
          · rcases List.mem_cons.mp hold with heq | hold1
            · right
              simp only [Prod.mk.injEq] at heq
              obtain ⟨rfl, rfl⟩ := heq
              exact ⟨List.mem_cons_self _ _, rfl, hkeys⟩
            · exact Or.inl hold1
          · exact Or.inr ⟨List.mem_cons_of_mem _ h1, h2, h3⟩

/-- With the key bound, `Eval` does not take the `not found` branch. -/
theorem Engine.Eval_found (e : Engine) (key : String) (r : RSSItem)
    (hkey : (e.programs.lookup key).isSome) (name : String) :
    e.Eval key r ≠ .error (.programNotFound name) := by
  unfold Engine.Eval
  cases hl : e.programs.lookup key with
  | none => simp [hl] at hkey
  | some prg =>
    cases hv : prg (evalVars r) with
    | error msg => simp [hv]
    | ok out => simp [hv]

/-- When the keys of all the rules still to run are bound, the loop does not
stop on a `not found` error. -/
theorem transformLoop_found (u : Char → Char) (fp : feedProxy)
    (rules : List Config.Transformation) (s : ItemState)
    (hkeys : ∀ t ∈ rules,
      (fp.engine.programs.lookup (programKey fp.config.Name t.Field)).isSome)
    (field name : String) :
    (transformLoop u fp rules s).2 ≠ some (.evaluating field (.programNotFound name)) := by
  induction rules generalizing s with
  | nil => simp [transformLoop]
  | cons t rest ih =>
    simp only [transformLoop]
    have hfound := Engine.Eval_found fp.engine _ s.rssItem (hkeys t (List.mem_cons_self _ _)) name
    cases hv : fp.engine.Eval (programKey fp.config.Name t.Field) s.rssItem with
    | error err =>
      rw [hv] at hfound
      simp only [ne_eq, Option.some.injEq, TransformError.evaluating.injEq, not_and]
      intro _ herr
      exact hfound (by rw [herr])
    | ok r =>
      exact ih _ (fun t1 ht1 => hkeys t1 (List.mem_cons_of_mem _ ht1))

/-- A proxy that lookup finds under a path is an entry of the map. -/
theorem lookup_mem {β : Type 1} (path : String) (fp : β) (l : List (String × β))
    (h : l.lookup path = some fp) : (path, fp) ∈ l := by
  induction l with
  | nil => simp at h
  | cons entry rest ih =>
    obtain ⟨p, v⟩ := entry
    rw [List.lookup_cons] at h
    split at h
    · rename_i heq
      simp only [Option.some.injEq] at h
      have : path = p := by simpa using heq
      subst this
      subst h
      exact List.mem_cons_self _ _
    · exact List.mem_cons_of_mem _ (ih h)

/-- C6: when `NewHandler` succeeds, every feed of the configuration has a
proxy in the handler, and for every proxy of the handler (so for the one
`ServeHTTP` looks up) and every rule declared for its feed, the key
`transformItem` evaluates the rule with is bound in that proxy's program map:
`Eval` on that key, and so `transformItem`, never ends in `program ... not
found`. -/
theorem C6_no_program_not_found (newEnv : Except String Env) (cfg : Config) (h : Handler)
    (hok : NewHandler newEnv cfg = .ok h) :
    (∀ feed ∈ cfg.Feeds, ∃ fp, (feed.Path, fp) ∈ h.feeds ∧ fp.config = feed) ∧
    (∀ path fp, h.feeds.lookup path = some fp → (path, fp) ∈ h.feeds) ∧
    (∀ path fp, (path, fp) ∈ h.feeds →
      fp.config ∈ cfg.Feeds ∧
      (∀ t ∈ fp.config.Transformations,
        (∃ prg, fp.engine.programs.lookup (programKey fp.config.Name t.Field) = some prg) ∧
        ∀ r name, fp.engine.Eval (programKey fp.config.Name t.Field) r ≠
          .error (.programNotFound name)) ∧
      (∀ u item field name, (transformItem u fp item).2 ≠
        some (.evaluating field (.programNotFound name)))) := by
  obtain ⟨_, hall, hinv⟩ := newHandlerLoop_feeds newEnv cfg.Feeds _ h hok
  refine ⟨hall, fun path fp hl => lookup_mem path fp _ hl, ?_⟩
  intro path fp hmem
  rcases hinv path fp hmem with hold | ⟨h1, _, h3⟩
  · simp at hold
  · refine ⟨h1, ?_, ?_⟩
    · intro t ht
      exact ⟨Option.isSome_iff_exists.mp (h3 t ht),
        fun r name => Engine.Eval_found _ _ r (h3 t ht) name⟩
    · intro u item field name
      exact transformLoop_found u fp _ _ h3 field name

/-- C6 on the configuration with the feeds `torrents` and `academic`. -/
theorem C6_no_program_not_found_witness :
    NewHandler (.ok Sample.env) ⟨[Sample.torrents, Sample.academic]⟩ =
      .ok { feeds := [("/academic", Sample.academicProxy), ("/torrents", Sample.torrentsProxy)] } ∧
    ∀ t ∈ Sample.torrentsProxy.config.Transformations,
      ∃ prg, Sample.torrentsProxy.engine.programs.lookup
        (programKey Sample.torrentsProxy.config.Name t.Field) = some prg :=
  ⟨rfl, fun t ht =>
    (((C6_no_program_not_found (.ok Sample.env) ⟨[Sample.torrents, Sample.academic]⟩
      { feeds := [("/academic", Sample.academicProxy), ("/torrents", Sample.torrentsProxy)] }
      rfl).2.2 "/torrents" Sample.torrentsProxy (by simp)).2.1 t ht).1⟩

/-! ### Two rules under one field key -/

/-- Two rules with the same field key share the program key, and the program
of the second replaces that of the first: after the compile loop the key is
bound to the program of the second expression. -/
theorem compileTransformations_same_key (env : Env) (name f e1 e2 : String) (engine1 : Engine)
    (h : compileTransformations name { env := env, programs := [] } [⟨f, e1⟩, ⟨f, e2⟩] =
      .ok engine1) :
    ∃ ast2 prg2, env.Compile e2 = .ok ast2 ∧ env.Program ast2 = .ok prg2 ∧
      engine1.programs.lookup (programKey name f) = some prg2 := by
  simp only [compileTransformations, Engine.Compile] at h
  cases hc1 : env.Compile e1 with
  | error msg => simp [hc1] at h
  | ok ast1 =>
    cases hp1 : env.Program ast1 with
    | error msg => simp [hc1, hp1] at h
    | ok prg1 =>
      cases hc2 : env.Compile e2 with
      | error msg => simp [hc1, hp1, hc2] at h
      | ok ast2 =>
        cases hp2 : env.Program ast2 with
        | error msg => simp [hc1, hp1, hc2, hp2] at h
        | ok prg2 =>
          simp only [hc1, hp1, hc2, hp2, Except.ok.injEq] at h
          subst h
          exact ⟨ast2, prg2, rfl, hp2, by simp [List.lookup]⟩

/-- C1, at the feed `t` with the rules (`title`, `title + "a"`) then
(`title`, `title + "b"`) and an entry titled `x`: both evaluations succeed,
the first expression on the entry gives `xa` and the second on the entry
retitled `xa` gives `xab`, the title order sensitivity calls for; `transformItem`
leaves the title `xbb`, because both rules are evaluated under the key
`t_title`, bound to the second program. With the second key spelled `Title`
the keys differ and the title ends as `xab`. -/
theorem C1_same_key_runs_second_expression_twice :
    NewHandler (.ok Sample.env) ⟨[Sample.twice]⟩ = .ok { feeds := [("/t", Sample.twiceProxy)] } ∧
    Sample.compile "title + \"a\"" = .ok (Sample.appendToVar "title" "a") ∧
    Sample.compile "title + \"b\"" = .ok (Sample.appendToVar "title" "b") ∧
    Sample.appendToVar "title" "a" (evalVars (toRSSItem (Sample.entry "x" ""))) =
      .ok (.string "xa") ∧
    Sample.appendToVar "title" "b" (evalVars (toRSSItem (Sample.entry "xa" ""))) =
      .ok (.string "xab") ∧
    transformItem Sample.unicodeLower Sample.twiceProxy (Sample.entry "x" "") =
      (Sample.entry "xbb" "", none) ∧
    (transformItem Sample.unicodeLower Sample.twiceProxy (Sample.entry "x" "")).1.Title ≠ "xab" ∧
    NewHandler (.ok Sample.env) ⟨[Sample.twiceCased]⟩ =
      .ok { feeds := [("/t", Sample.twiceCasedProxy)] } ∧
    transformItem Sample.unicodeLower Sample.twiceCasedProxy (Sample.entry "x" "") =
      (Sample.entry "xab" "", none) :=
  ⟨rfl, rfl, rfl, rfl, rfl, by decide, by decide, rfl, by decide⟩

/-! ### ServeHTTP -/

/-- C8 as stated fails twice. An upstream answer with status 500 is no fetch
failure for `ServeHTTP`: the body is run through the pipeline and the client
gets 200 with the transformed feed. And a feed configured on `/healthz` is
never fetched: with the upstream timing out the answer is 200 `ok`. -/
theorem C8_counterexample_non_200_and_health_path :
    NewHandler (.ok Sample.env) ⟨[Sample.torrents]⟩ =
      .ok { feeds := [("/torrents", Sample.torrentsProxy)] } ∧
    transformFeed Sample.xml Sample.unicodeLower Sample.torrentsProxy "Ubuntu ISO" =
      .ok (xmlHeader ++ "Ubuntu ISO [verified]") ∧
    ServeHTTP Sample.xml Sample.unicodeLower (fun _ => .response 500 (.ok "Ubuntu ISO"))
      { feeds := [("/torrents", Sample.torrentsProxy)] } "/torrents" =
      { statusCode := 200, contentType := some "application/rss+xml; charset=utf-8",
        body := xmlHeader ++ "Ubuntu ISO [verified]" } ∧
    Config.validate ⟨[Sample.health]⟩ = none ∧
    NewHandler (.ok Sample.env) ⟨[Sample.health]⟩ =
      .ok { feeds := [("/healthz", Sample.healthProxy)] } ∧
    ServeHTTP Sample.xml Sample.unicodeLower (fun _ => .failed "timeout")
      { feeds := [("/healthz", Sample.healthProxy)] } "/healthz" =
      { statusCode := 200, contentType := none, body := "ok" } :=
  ⟨rfl, rfl, by decide, by decide, rfl, by decide⟩

/-- C8, amended: for a request to a configured feed path that is none of
`/healthz`, `/readyz`, `/livez`, when `client.Get` returns an error
(unreachable, timeout) or the body cannot be read, `ServeHTTP` answers 502
whatever the codec and the rules, so without running the pipeline; when the
body is read, the status code of the upstream answer plays no part: the body
goes through the pipeline and the answer is 200 or 500 by its outcome. -/
theorem C8_fetch_error_is_bad_gateway (get : String → GetResult) (h : Handler)
    (path : String) (fp : feedProxy)
    (hpath : path ∉ ["/healthz", "/readyz", "/livez"])
    (hfeed : h.feeds.lookup path = some fp) :
    (∀ err, get fp.config.Upstream = .failed err →
      ∀ xml u, ServeHTTP xml u get h path = httpError "upstream error" 502) ∧
    (∀ code err, get fp.config.Upstream = .response code (.error err) →
      ∀ xml u, ServeHTTP xml u get h path = httpError "read error" 502) ∧
    (∀ code body, get fp.config.Upstream = .response code (.ok body) →
      ∀ xml u, ServeHTTP xml u get h path =
        match transformFeed xml u fp body with
        | .error _ => httpError "transform error" 500
        | .ok transformed =>
          { statusCode := 200, contentType := some "application/rss+xml; charset=utf-8",
            body := transformed }) := by
  simp only [List.mem_cons, List.mem_singleton, List.not_mem_nil, or_false] at hpath
  refine ⟨?_, ?_, ?_⟩
  · intro err hget xml u
    simp [ServeHTTP, hpath, hfeed, hget]
  · intro code err hget xml u
    simp [ServeHTTP, hpath, hfeed, hget]
  · intro code body hget xml u
    simp [ServeHTTP, hpath, hfeed, hget]

/-- C8 amended, on the feed `torrents` with the upstream timing out. -/
theorem C8_fetch_error_is_bad_gateway_witness :
    "/torrents" ∉ ["/healthz", "/readyz", "/livez"] ∧
    (Handler.mk [("/torrents", Sample.torrentsProxy)]).feeds.lookup "/torrents" =
      some Sample.torrentsProxy ∧
    ServeHTTP Sample.xml Sample.unicodeLower (fun _ => .failed "timeout")
      { feeds := [("/torrents", Sample.torrentsProxy)] } "/torrents" =
      { statusCode := 502, contentType := some "text/plain; charset=utf-8",
        body := "upstream error\n" } :=
  ⟨by decide, rfl,
    (C8_fetch_error_is_bad_gateway (fun _ => .failed "timeout")
      { feeds := [("/torrents", Sample.torrentsProxy)] } "/torrents" Sample.torrentsProxy
      (by decide) rfl).1 "timeout" rfl Sample.xml Sample.unicodeLower⟩

end QbProxies
